import Mathlib

/-!
# AdminDashboard: search, level filter, pagination state and CSV rows

A shallow embedding of `src/Components/AdminDashboard.js`.

* A record of `mockData.json` is a structure of five strings.
* The component's state (`searchText`, `filterLevel` and the page index and
  page size of each of the two table instances) is the structure `ViewState`;
  an event handler is a function from the state and the event's value to the
  next state.
* Values derived on each render (`filteredData`, `csvData`) are functions of
  the data and the state.
* JavaScript numbers that the component stores are integers or `NaN`
  (`JSNum`, with `none` for `NaN`).
* The Unicode case mapping behind `toLowerCase` is a table of the language
  runtime, not of the source: it is a parameter (`CaseMapping`), and every
  statement about the filter holds for every case mapping.
-/

namespace AdminDashboard

/-! ## Data model -/

/-- One entry of `mockData.json`, with the fields the component reads. -/
structure Record where
  first_name : String
  phone_number : String
  email : String
  level : String
  profession : String
deriving DecidableEq, Repr

/-- A number held by the component: an integer, or `none` for `NaN`. -/
abbrev JSNum := Option Int

/-- A page index: a natural number, or `none` for `NaN`. -/
abbrev JSIndex := Option Nat

/-- The state of the component: the two `useState` cells and the
`pageIndex`/`pageSize` of the two `useTable` instances (the first over `data`,
the second, which is the one rendered, over `filteredData`). The first table
only ever receives `gotoPage(0)`, so its page index is a natural number. -/
structure ViewState where
  searchText : String
  filterLevel : String
  pageIndex : Nat
  pageSize : JSNum
  filteredPageIndex : JSIndex
  filteredPageSize : JSNum
deriving DecidableEq, Repr

/-- The state on mount: `useState('')` twice, `initialState` of the first
table `{ pageIndex: 0, pageSize: 10 }` and of the filtered table
`{ pageIndex: 0, pageSize: 25 }`. -/
def initialState : ViewState :=
  { searchText := "", filterLevel := "",
    pageIndex := 0, pageSize := some 10,
    filteredPageIndex := some 0, filteredPageSize := some 25 }

/-! ## String built-ins used by the filter -/

/-- `String.prototype.toLowerCase`, taken as a parameter: the Unicode case
mapping is a table of the language runtime. All that is used of it is that it
is a function of the string and keeps the empty string. -/
structure CaseMapping where
  toLowerCase : String → String
  empty : toLowerCase "" = ""

/-- What `toLowerCase` does on a string of ASCII characters: `A`..`Z` go to
`a`..`z`, every other character is kept. -/
def asciiLowerCase (s : String) : String := ⟨s.data.map Char.toLower⟩

/-- The case mapping used to evaluate the scenarios, whose strings are ASCII. -/
def asciiCase : CaseMapping := ⟨asciiLowerCase, rfl⟩

/-- The scan behind `String.prototype.includes`: try `search` as a prefix at
every position of the text, the end position included. -/
def includesChars (search : List Char) : List Char → Bool
  | [] => search.isEmpty
  | c :: cs => search.isPrefixOf (c :: cs) || includesChars search cs

/-- `s.includes(search)`. -/
def includes (s search : String) : Bool := includesChars search.data s.data

/-! ## The view model -/

/-- The callback of `data.filter(...)` in `filteredData`. -/
def rowMatches (U : CaseMapping) (searchText filterLevel : String) (row : Record) : Bool :=
  includes (U.toLowerCase row.first_name) (U.toLowerCase searchText) &&
    (filterLevel == "" || row.level == filterLevel)

/-- `filteredData`: `data.filter((row) => ...)` for the current search text and
level selector. -/
def filteredData (U : CaseMapping) (data : List Record) (searchText filterLevel : String) :
    List Record :=
  data.filter (rowMatches U searchText filterLevel)

/-- `filteredData` as the component computes it from its state. -/
def filteredDataOf (U : CaseMapping) (data : List Record) (s : ViewState) : List Record :=
  filteredData U data s.searchText s.filterLevel

/-! ## Event handlers

Modelled from the spec: the table hook (`useTable` with `usePagination`) is a
dependency that is not part of the source. Its setters act on the state of the
table instance they were destructured from: `gotoPage` on the first table
(lines 56-73), `gotoFilteredPage`/`setFilteredPageSize` on the rendered table
(lines 96-113). "Changing the level filter resets the current page index to
0": when the array a table is given is a new one, the hook of that table puts
its page index back to the initial one on the render that follows. An event is
modelled up to the end of that render. -/

/-- Whether the render after an event computes `filteredData` anew: the
dependencies `[data, searchText, filterLevel]` of its `useMemo`, of which
`data` is the same array at every render. -/
def filteredDataChanged (prev next : ViewState) : Bool :=
  prev.searchText != next.searchText || prev.filterLevel != next.filterLevel

/-- Modelled from the spec: the render after an event. The rendered table is
given `filteredData`; when that is a new array its hook resets its page index
to the initial page index, 0. The first table is always given `data`. -/
def autoResetPage (prev next : ViewState) : ViewState :=
  if filteredDataChanged prev next then { next with filteredPageIndex := some 0 } else next

/-- `onChange` of the search field, `setSearchText(e.target.value)`, and the
render that follows. -/
def handleSearchChange (s : ViewState) (value : String) : ViewState :=
  autoResetPage s { s with searchText := value }

/-- `handleFilterChange`: `setFilterLevel(e.target.value); gotoPage(0)`, and
the render that follows. `gotoPage` is the setter of the first table. -/
def handleFilterChange (s : ViewState) (value : String) : ViewState :=
  autoResetPage s { s with filterLevel := value, pageIndex := 0 }

/-- White space skipped by `parseInt` before the number. -/
def isWhiteSpace (c : Char) : Bool :=
  [0x09, 0x0A, 0x0B, 0x0C, 0x0D, 0x20, 0xA0, 0x1680, 0x2000, 0x2001, 0x2002, 0x2003,
    0x2004, 0x2005, 0x2006, 0x2007, 0x2008, 0x2009, 0x200A, 0x2028, 0x2029, 0x202F,
    0x205F, 0x3000, 0xFEFF].contains c.toNat

/-- The value of a run of decimal digits. -/
def digitsValue (digits : List Char) : Nat :=
  digits.foldl (fun acc c => 10 * acc + (c.toNat - 48)) 0

/-- `parseInt(value, 10)`: skip leading white space, read an optional sign,
then the longest run of decimal digits; `NaN` when that run is empty. The
value is the exact integer, as the runtime gives it up to `2^53`. -/
def parseInt (value : String) : JSNum :=
  let trimmed := value.data.dropWhile isWhiteSpace
  let signed : Bool × List Char :=
    match trimmed with
    | '-' :: rest => (true, rest)
    | '+' :: rest => (false, rest)
    | rest => (false, rest)
  let digits := signed.2.takeWhile Char.isDigit
  if digits.isEmpty then none
  else if signed.1 then some (-(digitsValue digits : Int))
  else some (digitsValue digits : Int)

/-- `pageSize * pageIndex` of a table: the position of the top row of its
page, `NaN` when either factor is. -/
def topRowIndex (size : JSNum) (index : JSIndex) : JSNum :=
  match size, index with
  | some n, some i => some (n * (i : Int))
  | _, _ => none

/-- Modelled from the spec: the page index of a table after
`setPageSize(newSize)` and then `gotoPage(0)` (the hook is not part of the
source). `setPageSize` moves to the page `floor(top / newSize)` that holds the
old top row, which is `NaN` when the top row or the new size is `NaN` and
when both are 0; `gotoPage(0)` then goes to page 0, except from `NaN`. -/
def pageIndexAfterResize (top newSize : JSNum) : JSIndex :=
  match top, newSize with
  | some t, some n => if t = 0 ∧ n = 0 then none else some 0
  | _, _ => none

/-- `handleChangeRowsPerPage`:
`setFilteredPageSize(parseInt(event.target.value, 10)); gotoFilteredPage(0)`.
The render that follows is given the same `filteredData`. -/
def handleChangeRowsPerPage (s : ViewState) (value : String) : ViewState :=
  { s with
    filteredPageSize := parseInt value,
    filteredPageIndex :=
      pageIndexAfterResize (topRowIndex s.filteredPageSize s.filteredPageIndex)
        (parseInt value) }

/-- `rowsPerPageOptions={[10, 25, 50]}` of the paginator. -/
def rowsPerPageOptions : List Int := [10, 25, 50]

/-- The page size is one of the values the paginator offers. -/
def AllowedPageSize (size : JSNum) : Prop :=
  ∃ n ∈ rowsPerPageOptions, size = some n

instance (size : JSNum) : Decidable (AllowedPageSize size) := by
  unfold AllowedPageSize; infer_instance

/-! ## Export rows -/

/-- An object literal with string values: its properties in insertion order. -/
abbrev CsvRow := List (String × String)

/-- The object built for one record by the callback of `csvData`. -/
def csvRow (row : Record) : CsvRow :=
  [("Serial Number", row.first_name),
   ("Name", row.first_name),
   ("Phone Number", row.phone_number),
   ("Email", row.email),
   ("Level", row.level),
   ("Profession", row.profession)]

/-- `csvData`: `filteredData.map((row) => ({ ... }))`. -/
def csvData (U : CaseMapping) (data : List Record) (s : ViewState) : List CsvRow :=
  (filteredDataOf U data s).map csvRow

/-- The column names of the export, in the order of the object literal. -/
def csvHeader : List String :=
  ["Serial Number", "Name", "Phone Number", "Email", "Level", "Profession"]

/-- Adding the keys of one row to the keys seen so far: a key already seen
keeps its place, a new key goes to the end. -/
def unionKeys (seen keys : List String) : List String :=
  keys.foldl (fun acc k => if k ∈ acc then acc else acc ++ [k]) seen

/-- Modelled from the spec: the CSV serialiser behind `CSVLink` is a dependency
that is not part of the source. `CSVLink` is given `data={csvData}` and a file
name, and no header list, so the header row can only be read off the rows: the
keys of the row objects, each once, in order of first appearance. -/
def jsonsHeaders (rows : List CsvRow) : List String :=
  rows.foldl (fun seen row => unionKeys seen (row.map Prod.fst)) []

/-- Modelled from the spec: the exported table (the serialiser is not part of
the source): "the first row is column headers and each subsequent row is one
record's fields in a fixed column order", the headers being those read off the
rows and a missing field an empty string. -/
def exportTable (rows : List CsvRow) : List (List String) :=
  jsonsHeaders rows :: rows.map fun row => (jsonsHeaders rows).map fun k => (row.lookup k).getD ""

/-! ## Pagination -/

/-- The elements of `xs` at positions `start ≤ k < stop`. -/
def slice {α : Type} (xs : List α) (start stop : Nat) : List α :=
  (xs.take stop).drop start

/-- Modelled from the spec: the `page` of the table hook (`useTable` with
`usePagination`, not part of the source): "exactly the slice
`[page_index * page_size, min(length, (page_index+1) * page_size))`" of the
rows. -/
def page {α : Type} (rows : List α) (pageIndex pageSize : Nat) : List α :=
  slice rows (pageIndex * pageSize) (min rows.length ((pageIndex + 1) * pageSize))

/-- The number of pages, `ceil(length / pageSize)`. -/
def pageCount (length pageSize : Nat) : Nat :=
  (length + pageSize - 1) / pageSize


/-! ## Sample records -/

/-- The record `Ana` of the scenario, a mid-level entry. -/
def ana : Record :=
  { first_name := "Ana", phone_number := "555-0101", email := "ana@example.com",
    level := "mid-level", profession := "engineer" }

/-- The record `Ben` of the scenario, a senior-level entry. -/
def ben : Record :=
  { first_name := "Ben", phone_number := "555-0102", email := "ben@example.com",
    level := "senior-level", profession := "designer" }

/-- Thirty records that all match the search text `an`. -/
def thirty : List Record := List.replicate 30 ana

/-! ## Helper lemmas on the string scan -/

theorem includesChars_iff_substring (search text : List Char) :
    includesChars search text = true ↔ search <:+: text := by
  induction text with
  | nil =>
    cases search <;> simp [includesChars]
  | cons c cs ih =>
    simp only [includesChars, Bool.or_eq_true, List.isPrefixOf_iff_prefix, ih]
    rw [List.infix_cons_iff]

theorem includesChars_nil (text : List Char) : includesChars [] text = true := by
  rw [includesChars_iff_substring]
  exact List.nil_infix

theorem rowMatches_iff (U : CaseMapping) (searchText filterLevel : String) (row : Record) :
    rowMatches U searchText filterLevel row = true ↔
      (U.toLowerCase searchText).data <:+: (U.toLowerCase row.first_name).data ∧
        (filterLevel = "" ∨ row.level = filterLevel) := by
  simp [rowMatches, includes, includesChars_iff_substring]

/-! ## Helper lemmas on the filter -/

theorem filteredData_thirty : filteredData asciiCase thirty "an" "" = thirty := by
  have h : rowMatches asciiCase "an" "" ana = true := by decide
  simp [filteredData, thirty, List.filter_replicate, h]

theorem filteredData_ana_ben (U : CaseMapping) (hAna : U.toLowerCase "Ana" = "ana")
    (hBen : U.toLowerCase "Ben" = "ben") (hAn : U.toLowerCase "an" = "an") :
    filteredData U [ana, ben] "an" "" = [ana] := by
  have ha : rowMatches U "an" "" ana = true := by
    simp only [rowMatches, ana, hAna, hAn]
    decide
  have hb : rowMatches U "an" "" ben = false := by
    simp only [rowMatches, ben, hBen, hAn]
    decide
  simp [filteredData, List.filter, ha, hb]

/-! ## The filter -/

/-- C1: for every case mapping, a record is in `filteredData` exactly when it
is in `data`, its lower-cased `first_name` contains the lower-cased search text
as a substring and the level selector is empty ("all") or equal to the
record's level; on `[Ana, Ben]` the search `an` with selector "all" gives
`[Ana]`, for every case mapping that lower-cases `Ana`, `Ben` and `an` to
`ana`, `ben` and `an`, the ASCII one among them. -/
theorem filteredData_mem_iff :
    (∀ (U : CaseMapping) (data : List Record) (searchText filterLevel : String) (r : Record),
      r ∈ filteredData U data searchText filterLevel ↔
        r ∈ data ∧
          (U.toLowerCase searchText).data <:+: (U.toLowerCase r.first_name).data ∧
          (filterLevel = "" ∨ r.level = filterLevel)) ∧
    (∀ U : CaseMapping, U.toLowerCase "Ana" = "ana" → U.toLowerCase "Ben" = "ben" →
      U.toLowerCase "an" = "an" → filteredData U [ana, ben] "an" "" = [ana]) ∧
    filteredData asciiCase [ana, ben] "an" "" = [ana] := by
  refine ⟨?_, filteredData_ana_ben, by decide⟩
  intro U data searchText filterLevel r
  simp only [filteredData, List.mem_filter, rowMatches_iff]

/-- C2: `filteredData` is a sublist of `data`, so the kept records stand in
the order they have in `data`, and a record that passes the filter occurs in
`filteredData` as many times as in `data` (one that does not, not at all):
nothing is dropped, duplicated or moved. -/
theorem filteredData_sublist (U : CaseMapping) (data : List Record)
    (searchText filterLevel : String) :
    (filteredData U data searchText filterLevel).Sublist data ∧
      (∀ r : Record,
        (filteredData U data searchText filterLevel).count r =
          if rowMatches U searchText filterLevel r = true then data.count r else 0) ∧
      ∀ r : Record, r ∈ filteredData U data searchText filterLevel →
        (filteredData U data searchText filterLevel).count r = data.count r := by
  have hcount : ∀ r : Record,
      (filteredData U data searchText filterLevel).count r =
        if rowMatches U searchText filterLevel r = true then data.count r else 0 := by
    intro r
    by_cases h : rowMatches U searchText filterLevel r = true
    · rw [if_pos h]
      exact List.count_filter h
    · rw [if_neg h]
      apply List.count_eq_zero_of_not_mem
      intro hmem
      exact h (List.mem_filter.mp hmem).2
  refine ⟨List.filter_sublist data, hcount, ?_⟩
  intro r hr
  rw [hcount, if_pos (List.mem_filter.mp hr).2]

/-- C8: for every case mapping, with the empty search text `filteredData` is
the records whose level passes the selector, and with the empty selector as
well it is `data`. -/
theorem filteredData_empty_search (U : CaseMapping) (data : List Record)
    (filterLevel : String) :
    filteredData U data "" filterLevel =
        data.filter (fun r => decide (filterLevel = "" ∨ r.level = filterLevel)) ∧
      filteredData U data "" "" = data := by
  have h : ∀ (L : String) (r : Record),
      rowMatches U "" L r = decide (L = "" ∨ r.level = L) := by
    intro L r
    rw [Bool.eq_iff_iff, rowMatches_iff]
    simp [U.empty]
  constructor
  · exact List.filter_congr fun r _ => h filterLevel r
  · unfold filteredData
    rw [List.filter_eq_self]
    intro r _
    rw [h]
    simp

/-- C9: filtering the filtered sequence again with the same search text and
selector returns it unchanged, and `filteredData` as the component computes it
reads only the search text and the selector of the state. -/
theorem filteredData_idempotent (U : CaseMapping) (data : List Record)
    (searchText filterLevel : String) :
    filteredData U (filteredData U data searchText filterLevel) searchText filterLevel =
        filteredData U data searchText filterLevel ∧
      ∀ (s : ViewState) (i : Nat) (j : JSIndex) (p q : JSNum),
        filteredDataOf U data
            { s with pageIndex := i, pageSize := p,
                     filteredPageIndex := j, filteredPageSize := q } =
          filteredDataOf U data s := by
  constructor
  · simp [filteredData, List.filter_filter]
  · intro s i j p q
    rfl

/-! ## Export rows -/

/-- C3: `csvData` has one row per record of `filteredData`, row `k` being the
row built from record `k`, whatever the page index and the page size of either
table; thirty filtered records with page size 25 give thirty rows on page 0
and on page 1. -/
theorem csvData_covers_filteredData (U : CaseMapping) (data : List Record) (s : ViewState) :
    (csvData U data s).length = (filteredDataOf U data s).length ∧
      (∀ k : Nat, (csvData U data s)[k]? = ((filteredDataOf U data s)[k]?).map csvRow) ∧
      (∀ (i : Nat) (j : JSIndex) (p q : JSNum),
        csvData U data
            { s with pageIndex := i, pageSize := p,
                     filteredPageIndex := j, filteredPageSize := q } =
          csvData U data s) ∧
      (csvData asciiCase thirty
          { initialState with searchText := "an", filteredPageIndex := some 0 }).length = 30 ∧
      (csvData asciiCase thirty
          { initialState with searchText := "an", filteredPageIndex := some 1 }).length = 30 := by
  have h30 : (filteredData asciiCase thirty "an" "").length = 30 := by
    rw [filteredData_thirty]
    simp [thirty]
  exact ⟨by simp [csvData], fun k => by simp [csvData], fun i j p q => rfl,
    by simpa [csvData, filteredDataOf, initialState] using h30,
    by simpa [csvData, filteredDataOf, initialState] using h30⟩

/-- C10: the export row of a record has the six columns Serial Number, Name,
Phone Number, Email, Level, Profession in that order, holding `first_name`,
`first_name`, `phone_number`, `email`, `level`, `profession`; every row of
`csvData` is such a row of the filtered record at the same position. -/
theorem csvRow_columns (r : Record) :
    (csvRow r).map Prod.fst =
        ["Serial Number", "Name", "Phone Number", "Email", "Level", "Profession"] ∧
      (csvRow r).map Prod.snd =
        [r.first_name, r.first_name, r.phone_number, r.email, r.level, r.profession] ∧
      (csvRow r).lookup "Serial Number" = some r.first_name ∧
      ∀ (U : CaseMapping) (data : List Record) (s : ViewState) (k : Nat),
        ((csvData U data s)[k]?).map (List.map Prod.snd) =
          ((filteredDataOf U data s)[k]?).map fun x =>
            [x.first_name, x.first_name, x.phone_number, x.email, x.level, x.profession] := by
  refine ⟨rfl, rfl, by simp [csvRow, List.lookup], ?_⟩
  intro U data s k
  simp only [csvData, List.getElem?_map, Option.map_map]
  rfl

/-! ## Header row of the export -/

theorem unionKeys_csvHeader_nil : unionKeys [] csvHeader = csvHeader := by decide

theorem unionKeys_csvHeader_self : unionKeys csvHeader csvHeader = csvHeader := by decide

theorem csvRow_keys (r : Record) : (csvRow r).map Prod.fst = csvHeader := rfl

theorem foldl_unionKeys_csvHeader (rs : List Record) :
    (rs.map csvRow).foldl (fun seen row => unionKeys seen (row.map Prod.fst)) csvHeader =
      csvHeader := by
  induction rs with
  | nil => rfl
  | cons r rs ih =>
    simp only [List.map_cons, List.foldl_cons, csvRow_keys, unionKeys_csvHeader_self]
    exact ih

theorem jsonsHeaders_csvRows (r : Record) (rs : List Record) :
    jsonsHeaders ((r :: rs).map csvRow) = csvHeader := by
  simp only [jsonsHeaders, List.map_cons, List.foldl_cons, csvRow_keys, unionKeys_csvHeader_nil]
  exact foldl_unionKeys_csvHeader rs

/-- C6, as stated, fails: with no entry-level record the selector
`entry-level` leaves `csvData` empty and the exported table is one row without
any column name, not the row of the six column names. -/
theorem export_empty_not_header_only :
    filteredDataOf asciiCase [ana, ben] { initialState with filterLevel := "entry-level" } = [] ∧
      exportTable (csvData asciiCase [ana, ben] { initialState with filterLevel := "entry-level" }) ≠
        [csvHeader] := by
  decide

/-- C6, amended: when the filtered set is empty `csvData` is the empty list,
so whatever is computed from `csvData` alone is what it is on the empty list,
and the header row read off the rows is empty; when the filtered set is not
empty the header row is the six column names and one row per record follows. -/
theorem export_header_from_rows (U : CaseMapping) (data : List Record) (s : ViewState) :
    (filteredDataOf U data s = [] →
        csvData U data s = [] ∧
          (∀ (β : Type) (serialise : List CsvRow → β),
            serialise (csvData U data s) = serialise []) ∧
          exportTable (csvData U data s) = [[]]) ∧
      (filteredDataOf U data s ≠ [] →
        (exportTable (csvData U data s)).head? = some csvHeader ∧
          (exportTable (csvData U data s)).length = (filteredDataOf U data s).length + 1) := by
  constructor
  · intro h
    have hc : csvData U data s = [] := by simp [csvData, h]
    refine ⟨hc, fun β serialise => by rw [hc], ?_⟩
    rw [hc]
    rfl
  · intro h
    obtain ⟨r, rs, hrs⟩ := List.exists_cons_of_ne_nil h
    constructor
    · simp only [exportTable, csvData, hrs, List.head?_cons, jsonsHeaders_csvRows]
    · simp [exportTable, csvData]

/-- C6, amended, at concrete inputs: `[Ana, Ben]` filtered by `entry-level`
(empty) and by the empty selector (both records). -/
theorem export_header_from_rows_at_ana_ben :
    exportTable (csvData asciiCase [ana, ben] { initialState with filterLevel := "entry-level" }) = [[]] ∧
      (exportTable (csvData asciiCase [ana, ben] initialState)).head? = some csvHeader :=
  ⟨((export_header_from_rows asciiCase [ana, ben]
        { initialState with filterLevel := "entry-level" }).1 (by decide)).2.2,
    ((export_header_from_rows asciiCase [ana, ben] initialState).2 (by decide)).1⟩

/-! ## Event handlers -/

theorem filteredDataChanged_level (s : ViewState) (value : String)
    (h : value ≠ s.filterLevel) :
    filteredDataChanged s { s with filterLevel := value, pageIndex := 0 } = true := by
  simp only [filteredDataChanged, Bool.or_eq_true, bne_iff_ne, ne_eq]
  exact Or.inr fun h2 => h h2.symm

/-- C4: changing the level filter, that is `handleFilterChange` with a value
other than the current level (the only values the select control reports),
leaves the rendered table on page 0, whatever the search text, the previous
level, the page index and the page size were; the selector holds the new
value and the search text and page size are kept. -/
theorem handleFilterChange_resets_page (s : ViewState) (value : String)
    (h : value ≠ s.filterLevel) :
    (handleFilterChange s value).filteredPageIndex = some 0 ∧
      (handleFilterChange s value).filterLevel = value ∧
      (handleFilterChange s value).searchText = s.searchText ∧
      (handleFilterChange s value).filteredPageSize = s.filteredPageSize := by
  unfold handleFilterChange autoResetPage
  rw [if_pos (filteredDataChanged_level s value h)]
  exact ⟨rfl, rfl, rfl, rfl⟩

/-- C4 on page 1 of the rendered table with level `mid-level`: choosing
`senior-level` leaves the table on page 0. -/
theorem handleFilterChange_resets_page_from_one :
    ("senior-level" : String) ≠ "mid-level" ∧
      (handleFilterChange
          { initialState with filterLevel := "mid-level", filteredPageIndex := some 1 }
          "senior-level").filteredPageIndex = some 0 :=
  ⟨by decide,
    (handleFilterChange_resets_page
      { initialState with filterLevel := "mid-level", filteredPageIndex := some 1 }
      "senior-level" (by decide)).1⟩

/-- C7, as stated, fails: `handleChangeRowsPerPage` with the value `7` leaves
the page size 7, which is none of 10, 25, 50. -/
theorem handleChangeRowsPerPage_unlisted :
    (handleChangeRowsPerPage initialState "7").filteredPageSize = some 7 ∧
      ¬ AllowedPageSize (handleChangeRowsPerPage initialState "7").filteredPageSize := by
  decide

/-- C7, amended: the page size of the rendered table is 25 initially;
`handleChangeRowsPerPage` stores `parseInt(value, 10)` for every value, so the
page size after the handler is one of 10, 25, 50 exactly when the parsed value
is, and it is the requested value for each of the options `10`, `25`, `50`
offered by the paginator. -/
theorem handleChangeRowsPerPage_pageSize :
    initialState.filteredPageSize = some 25 ∧
      AllowedPageSize initialState.filteredPageSize ∧
      (∀ (s : ViewState) (value : String),
        (handleChangeRowsPerPage s value).filteredPageSize = parseInt value ∧
          (AllowedPageSize (handleChangeRowsPerPage s value).filteredPageSize ↔
            parseInt value = some 10 ∨ parseInt value = some 25 ∨ parseInt value = some 50)) ∧
      ∀ s : ViewState,
        (handleChangeRowsPerPage s "10").filteredPageSize = some 10 ∧
          (handleChangeRowsPerPage s "25").filteredPageSize = some 25 ∧
          (handleChangeRowsPerPage s "50").filteredPageSize = some 50 := by
  refine ⟨rfl, by decide, ?_, ?_⟩
  · intro s value
    refine ⟨rfl, ?_⟩
    simp [handleChangeRowsPerPage, AllowedPageSize, rowsPerPageOptions]
  · intro s
    refine ⟨?_, ?_, ?_⟩ <;> simp only [handleChangeRowsPerPage] <;> decide

/-! ## Pagination -/

theorem page_eq_drop_take {α : Type} (rows : List α) (i P : Nat) :
    page rows i P = (rows.take ((i + 1) * P)).drop (i * P) := by
  unfold page slice
  congr 1
  rcases Nat.le_total rows.length ((i + 1) * P) with h | h
  · rw [Nat.min_eq_left h, List.take_length, List.take_of_length_le h]
  · rw [Nat.min_eq_right h]

theorem length_page {α : Type} (rows : List α) (i P : Nat) :
    (page rows i P).length = min rows.length ((i + 1) * P) - i * P := by
  simp only [page, slice, List.length_drop, List.length_take]
  omega

theorem length_page_le {α : Type} (rows : List α) (i P : Nat) :
    (page rows i P).length ≤ P := by
  rw [length_page]
  have h : (i + 1) * P = i * P + P := by ring
  omega

theorem flatMap_page {α : Type} (rows : List α) (P n : Nat) :
    (List.range n).flatMap (fun i => page rows i P) = rows.take (n * P) := by
  induction n with
  | zero => simp
  | succ n ih =>
    have hle : n * P ≤ (n + 1) * P := Nat.mul_le_mul_right P (Nat.le_succ n)
    rw [List.range_succ, List.flatMap_append, ih, List.flatMap_singleton, page_eq_drop_take]
    have h := List.take_append_drop (n * P) (rows.take ((n + 1) * P))
    rw [List.take_take, Nat.min_eq_left hle] at h
    exact h

theorem le_pageCount_mul (N P : Nat) (hP : 0 < P) : N ≤ pageCount N P * P := by
  unfold pageCount
  have h1 := Nat.div_add_mod (N + P - 1) P
  have h2 := Nat.mod_lt (N + P - 1) hP
  have h3 : (N + P - 1) / P * P = P * ((N + P - 1) / P) := Nat.mul_comm _ _
  omega

/-- C5: for a page size `P > 0`, page `i` is the slice
`[i * P, min(N, (i+1) * P))` of the rows; the pages `0 .. ceil(N/P) - 1` in
order concatenate to the rows, their lengths sum to `N`, two different pages
hold different positions of the rows, and a page index at or past `ceil(N/P)`
gives the empty page. -/
theorem page_partition {α : Type} (rows : List α) (P : Nat) (hP : 0 < P) :
    (∀ i k : Nat,
      (page rows i P)[k]? =
        if i * P + k < min rows.length ((i + 1) * P) then rows[i * P + k]? else none) ∧
      (∀ i : Nat, (page rows i P).length = min rows.length ((i + 1) * P) - i * P) ∧
      (List.range (pageCount rows.length P)).flatMap (fun i => page rows i P) = rows ∧
      ((List.range (pageCount rows.length P)).map fun i => (page rows i P).length).sum =
        rows.length ∧
      (∀ i j k l : Nat, i ≠ j → k < (page rows i P).length → l < (page rows j P).length →
        i * P + k ≠ j * P + l) ∧
      ∀ i : Nat, pageCount rows.length P ≤ i → page rows i P = [] := by
  have hcat : (List.range (pageCount rows.length P)).flatMap (fun i => page rows i P) = rows := by
    rw [flatMap_page]
    exact List.take_of_length_le (le_pageCount_mul rows.length P hP)
  refine ⟨?_, fun i => length_page rows i P, hcat, ?_, ?_, ?_⟩
  · intro i k
    have hs : (i + 1) * P = i * P + P := by ring
    rw [page_eq_drop_take, List.getElem?_drop, List.getElem?_take]
    by_cases h : i * P + k < (i + 1) * P
    · by_cases h2 : i * P + k < rows.length
      · have h3 : i * P + k < min rows.length ((i + 1) * P) := by omega
        simp [h, h3]
      · have h3 : ¬ i * P + k < min rows.length ((i + 1) * P) := by omega
        have h4 : rows[i * P + k]? = none := List.getElem?_eq_none (by omega)
        simp [h, h3, h4]
    · have h3 : ¬ i * P + k < min rows.length ((i + 1) * P) := by omega
      simp [h, h3]
  · have h := congrArg List.length hcat
    rw [List.length_flatMap] at h
    exact h
  · intro i j k l hij hk hl
    have hki := length_page_le rows i P
    have hlj := length_page_le rows j P
    rcases Nat.lt_or_gt_of_ne hij with h | h
    · have h1 : (i + 1) * P ≤ j * P := Nat.mul_le_mul_right P h
      have h2 : (i + 1) * P = i * P + P := by ring
      omega
    · have h1 : (j + 1) * P ≤ i * P := Nat.mul_le_mul_right P h
      have h2 : (j + 1) * P = j * P + P := by ring
      omega
  · intro i hi
    have h1 : pageCount rows.length P * P ≤ i * P := Nat.mul_le_mul_right P hi
    have h2 := le_pageCount_mul rows.length P hP
    apply List.eq_nil_of_length_eq_zero
    rw [length_page]
    omega

/-- C5 at thirty rows and page size 25: two pages, page 0 with 25 rows and
page 1 with 5 rows, which concatenate to the thirty rows; page 2 is empty. -/
theorem page_partition_thirty :
    0 < 25 ∧
      pageCount thirty.length 25 = 2 ∧
      (page thirty 0 25).length = 25 ∧
      (page thirty 1 25).length = 5 ∧
      (List.range (pageCount thirty.length 25)).flatMap (fun i => page thirty i 25) = thirty ∧
      page thirty 2 25 = [] :=
  ⟨by decide, by decide, by decide, by decide,
    (page_partition thirty 25 (by decide)).2.2.1,
    (page_partition thirty 25 (by decide)).2.2.2.2.2 2 (by decide)⟩

end AdminDashboard
